import Mathlib

/-!
Shallow embedding of the Pizza-Calculator repository's core logic:
the yeast-table `DataExtractor` (src/data/data_extractor.py), the
`NeapolitanCalculator` (src/calculators/neapolitan_calculator.py), the
`PizzaRecipe` object with its auto-recomputing properties
(src/recipe/recipe.py, src/recipe/utilities.py) and the JSON round-trip of
the `RecipeManager` (src/manager/manager.py).

Modelling conventions:
- Python floats are modelled as `ℚ` (the numbers involved are small decimals;
  comparisons and arithmetic are exact at that scale).
- A CSV cell (a string) is modelled by its semantic content after `strip()`:
  `Cell.blank` for a whitespace-only string, `Cell.num q` for a string that
  `float(...)` parses to the value `q`, and `Cell.text` for a non-blank string
  that `float(...)` rejects with `ValueError`.
- Raised Python exceptions are modelled with `Except PizzaError`; a distinct
  constructor is used for each raise site / builtin exception kind.
-/

/-- Error kinds raised by the embedded code.  The first six correspond to the
spec's taxonomy (`TemperatureNotFound`, `UnknownYeastType`,
`MismatchFermentation(leg)`, `MissingTemperatures`, `InvalidFermentation`,
`OutOfRange`); the remaining ones are raw Python exceptions escaping from
builtins (`min` on an empty sequence, `list.index` miss, `float(...)` parse
failure, list subscript out of range, float division by zero) and the
manager's `NO_CALCULATOR_FOUND`. -/
inductive PizzaError where
  | temperatureNotFound
  | unknownYeastType
  | mismatchFermentation (leg : String)
  | missingTemperatures
  | invalidFermentation
  | indexOutOfBounds
  | minEmptySequence
  | valueNotInList
  | floatParseFailure
  | listIndexOutOfRange
  | zeroDivision
  | noCalculatorFound
deriving DecidableEq

/-- Membership test for the spec's error taxonomy (section 7 of the spec);
the raw Python exception kinds are outside it. -/
def PizzaError.inTaxonomy : PizzaError → Bool
  | .temperatureNotFound => true
  | .unknownYeastType => true
  | .mismatchFermentation _ => true
  | .missingTemperatures => true
  | .invalidFermentation => true
  | .indexOutOfBounds => true
  | _ => false

instance {ε α : Type _} [DecidableEq ε] [DecidableEq α] : DecidableEq (Except ε α) := fun a b =>
  match a, b with
  | .ok x, .ok y => decidable_of_iff (x = y) (by simp)
  | .error x, .error y => decidable_of_iff (x = y) (by simp)
  | .ok _, .error _ => isFalse (by simp)
  | .error _, .ok _ => isFalse (by simp)

/-- A CSV cell after `strip()`: blank, a numeric literal with value `q`, or
non-blank text that `float(...)` rejects. -/
inductive Cell where
  | blank
  | num (q : ℚ)
  | text
deriving DecidableEq

/-- Truthiness of the stripped cell string (`if row[i].strip():`). -/
def Cell.isBlank : Cell → Bool
  | .blank => true
  | _ => false

/-- Python `float(cellString)`: succeeds exactly on numeric cells;
`float('')` and `float(<text>)` raise `ValueError`. -/
def Cell.toFloat : Cell → Option ℚ
  | .num q => some q
  | _ => none

/-- Python builtin `abs` on a float. -/
def pyAbs (q : ℚ) : ℚ := if q < 0 then -q else q

/-- Python `min(iterable, key=k)` loop after consuming the first element `v`:
the running minimum is replaced only on a strictly smaller key, so the first
element attaining the minimal key wins. -/
def pyMin1 (k : ℚ → ℚ) (v : ℚ) : List ℚ → ℚ
  | [] => v
  | y :: ys => pyMin1 k (if k y < k v then y else v) ys

/-- Python `min(xs, key=k)`: raises `ValueError: min() arg is an empty
sequence` on an empty iterable. -/
def pyMinBy (k : ℚ → ℚ) : List ℚ → Except PizzaError ℚ
  | [] => .error .minEmptySequence
  | x :: xs => .ok (pyMin1 k x xs)

/-- Position of the first occurrence of `x`, as scanned by `list.index`. -/
def pyIndexAux (x : ℚ) : List ℚ → Option Nat
  | [] => none
  | y :: ys => if y = x then some 0 else (pyIndexAux x ys).map (· + 1)

/-- Python `xs.index(x)`: first index holding `x`, `ValueError` if absent. -/
def pyIndex (xs : List ℚ) (x : ℚ) : Except PizzaError Nat :=
  match pyIndexAux x xs with
  | some i => .ok i
  | none => .error .valueNotInList

/-- Applies `float(...)` to every (already stripped, non-blank) cell of a
comprehension, propagating the `ValueError` of the first unparsable cell. -/
def pyFloatList : List Cell → Except PizzaError (List ℚ)
  | [] => .ok []
  | c :: cs =>
    match c.toFloat with
    | none => .error .floatParseFailure
    | some q => (pyFloatList cs).map (q :: ·)

/-- Python `int(x)` on a float: truncation toward zero. -/
def pyIntTrunc (q : ℚ) : Int := Int.tdiv q.num (q.den : Int)

/-- State of the singleton `DataExtractor` after `__init__`: the parsed CSV
grid and the configuration values it caches (temperature column index,
duration column range, selective temperature row range, yeast type list). -/
structure DataExtractor where
  csv_data : List (List Cell)
  temperature_column : Nat
  duration_column_range : Nat × Nat
  temperature_range : Nat × Nat
  yeast_types : List String
deriving DecidableEq

namespace DataExtractor

/-- Embeds `get_cell_value`: `self._csv_data[row][column]`; a Python list
subscript out of range raises `IndexError` (uncaught at this site). -/
def get_cell_value (e : DataExtractor) (row column : Nat) : Except PizzaError Cell :=
  match e.csv_data[row]? with
  | none => .error .listIndexOutOfRange
  | some r =>
    match r[column]? with
    | none => .error .listIndexOutOfRange
    | some c => .ok c

/-- Selection step of the `get_temperature_value_range` comprehension: row
`i` contributes its temperature-column cell when the row exists, the column
exists in it, and the stripped cell is non-empty. -/
def temperature_selector (e : DataExtractor) (i : Nat) : Option Cell :=
  match e.csv_data[i]? with
  | none => none
  | some row =>
    match row[e.temperature_column]? with
    | none => none
    | some c => if c.isBlank then none else some c

/-- Embeds `get_temperature_value_range`: the comprehension selects the rows
`i` of `range(row_start, row_end)` (see `temperature_selector`) and applies
`float` to each selected cell. -/
def get_temperature_value_range (e : DataExtractor) : Except PizzaError (List ℚ) :=
  pyFloatList <|
    (List.range' e.temperature_range.1
      (e.temperature_range.2 - e.temperature_range.1)).filterMap e.temperature_selector

/-- Selection step of the `get_duration_value_range` comprehension: column
`i` contributes its cell when it exists in the row and the stripped cell is
non-empty. -/
def row_selector (row : List Cell) (i : Nat) : Option Cell :=
  match row[i]? with
  | none => none
  | some c => if c.isBlank then none else some c

/-- Embeds `get_duration_value_range`: empty list for a row beyond the grid,
otherwise the non-blank cells of `range(column_start, column_end)` that exist
in the row, each parsed with `float`. -/
def get_duration_value_range (e : DataExtractor) (row_index : Nat) :
    Except PizzaError (List ℚ) :=
  if e.csv_data.length ≤ row_index then .ok []
  else
    pyFloatList <|
      (List.range' e.duration_column_range.1
          (e.duration_column_range.2 - e.duration_column_range.1)).filterMap
        (row_selector (e.csv_data.getD row_index []))

/-- Embeds the membership test of `get_temperature_row_index`:
`temperature_str in self._temperature_value_range`.  The left operand is the
string `f"..."` formatting of the temperature to one decimal while the list
holds floats; Python's `in` compares with `==`, and equality between a `str`
and a `float` is always `False` (both `__eq__` methods return
`NotImplemented`, so the comparison falls back to identity of distinct
objects).  The test is therefore `false` for every temperature and range. -/
def temperature_str_in_range (temperature : ℚ) (tvr : List ℚ) : Bool := false

/-- Embeds `get_temperature_row_index`: formats the temperature, tests string
membership in the cached float list (always false, see
`temperature_str_in_range`), otherwise takes the closest value when
`strict` is false and raises `TEMPERATURE_NOT_FOUND` when `strict` is true;
the local index is shifted by the first row of the temperature range.
The source reads `self._temperature_value_range`, cached at `__init__` from
`get_temperature_value_range`; recomputing it here is equivalent, since a
parse error in it would already have aborted construction. -/
def get_temperature_row_index (e : DataExtractor) (temperature : ℚ)
    (strict : Bool) : Except PizzaError Nat := do
  let tvr ← e.get_temperature_value_range
  let local_index ←
    if temperature_str_in_range temperature tvr then
      pyIndex tvr temperature
    else if strict = false then do
      let closest ← pyMinBy (fun x => pyAbs (x - temperature)) tvr
      pyIndex tvr closest
    else
      Except.error .temperatureNotFound
  return e.temperature_range.1 + local_index

/-- Embeds `_get_null_offset`: raises `INDEX_OUT_OF_BOUNDS` for a row beyond
the grid, otherwise scans columns from `start_col` to the end of the row for
the first non-blank cell, returning `0` when none is found. -/
def _get_null_offset (e : DataExtractor) (row_index start_col : Nat) :
    Except PizzaError Nat :=
  if e.csv_data.length ≤ row_index then .error .indexOutOfBounds
  else
    match (List.range' start_col ((e.csv_data.getD row_index []).length - start_col)).find?
        (fun i => !((e.csv_data.getD row_index []).getD i Cell.blank).isBlank) with
    | some i => .ok i
    | none => .ok 0

/-- Embeds `_find_closest_duration_column`: minimum absolute difference over
the row's duration list (`min` raises on an empty sequence), the `[-1]`
(last) element of the `enumerate` comprehension of indices attaining that
difference (modelled as a filter over index range, and raising `IndexError`
on an empty comprehension), shifted by the row's first-non-blank-column
offset.  The source's `duration_values_floats = [float(d) for d in
duration_range]` is the identity on a list of floats and is elided. -/
def _find_closest_duration_column (e : DataExtractor) (row : Nat) (duration : ℚ)
    (duration_range : List ℚ) : Except PizzaError Nat := do
  let closest_diff ← pyMinBy id (duration_range.map (fun val => pyAbs (val - duration)))
  let closest_relative_index ←
    match ((List.range duration_range.length).filter
        (fun i => decide (pyAbs (duration_range.getD i 0 - duration) = closest_diff))).getLast? with
    | some i => Except.ok i
    | none => Except.error .listIndexOutOfRange
  let offset_column ← e._get_null_offset row e.duration_column_range.1
  return closest_relative_index + offset_column

/-- Embeds `get_closest_duration_column`: nearest temperature row, that row's
duration list, then `_find_closest_duration_column`. -/
def get_closest_duration_column (e : DataExtractor) (duration temperature : ℚ) :
    Except PizzaError Nat := do
  let temperature_row_index ← e.get_temperature_row_index temperature false
  let duration_values ← e.get_duration_value_range temperature_row_index
  e._find_closest_duration_column temperature_row_index duration duration_values

/-- Embeds `get_yeast_type_index`: position of the yeast type in the
configured list, `UNKNOWN_YEAST_TYPE` when absent. -/
def get_yeast_type_index (e : DataExtractor) (yeast_type : String) :
    Except PizzaError Nat :=
  match e.yeast_types.indexOf? yeast_type with
  | some i => .ok i
  | none => .error .unknownYeastType

/-- Embeds `get_yeast_percentage`: reads the cell at (yeast-type row,
duration column) and parses it with `float` (`ValueError` uncaught here). -/
def get_yeast_percentage (e : DataExtractor) (yeast_type : String)
    (duration_column : Nat) : Except PizzaError ℚ := do
  let yeast_type_row ← e.get_yeast_type_index yeast_type
  let cell ← e.get_cell_value yeast_type_row duration_column
  match cell.toFloat with
  | some q => Except.ok q
  | none => Except.error .floatParseFailure

end DataExtractor

/-- Input attributes of a `PizzaRecipe` (the private fields set from the
`base_recipe` dictionary in `PizzaRecipe.__init__`). -/
structure PizzaRecipe where
  salt_percentage : ℚ
  oil_percentage : ℚ
  hydration : ℚ
  ball_weight : ℚ
  number_of_balls : ℚ
  yeast_type : String
  room_temperature : ℚ
  fridge_temperature : ℚ
  room_fermentation : ℚ
  fridge_fermentation : ℚ
deriving DecidableEq

namespace NeapolitanCalculator

open DataExtractor

/-- Embeds `PizzaCalculator.calculate_flour_weight`:
`(number_of_balls * ball_weight) / (1 + (hydration + oil + salt) / 100)`;
Python float division by zero raises `ZeroDivisionError`. -/
def calculate_flour_weight (r : PizzaRecipe) : Except PizzaError ℚ :=
  let total_percentage : ℚ :=
    1 + (r.hydration + r.oil_percentage + r.salt_percentage) / 100
  if total_percentage = 0 then .error .zeroDivision
  else .ok ((r.number_of_balls * r.ball_weight) / total_percentage)

/-- Embeds `NeapolitanCalculator._validate_fermentation_conditions`: the
three checks in source order. -/
def _validate_fermentation_conditions (r : PizzaRecipe) : Except PizzaError Unit :=
  if r.room_temperature = 0 ∧ r.room_fermentation ≠ 0 then
    .error (.mismatchFermentation "Room")
  else if r.fridge_temperature = 0 ∧ r.fridge_fermentation ≠ 0 then
    .error (.mismatchFermentation "Fridge")
  else if r.room_temperature = 0 ∧ r.fridge_temperature = 0 then
    .error .missingTemperatures
  else
    .ok ()

/-- Embeds `NeapolitanCalculator._get_combined_duration`: room-leg column,
nearest fridge-temperature row, the cell at that (row, column) parsed with
`float` (a `ValueError` is caught and re-raised as `INVALID_FERMENTATION`),
then the closest duration column at the fridge temperature for the parsed
value plus the fridge fermentation duration. -/
def _get_combined_duration (r : PizzaRecipe) (e : DataExtractor) :
    Except PizzaError Nat := do
  let room_duration_column ←
    e.get_closest_duration_column r.room_fermentation r.room_temperature
  let temperature_row_index ←
    e.get_temperature_row_index r.fridge_temperature false
  let cell ← e.get_cell_value temperature_row_index room_duration_column
  match cell.toFloat with
  | none => Except.error .invalidFermentation
  | some room_fermentation_value_at_fridge =>
    e.get_closest_duration_column
      (room_fermentation_value_at_fridge + r.fridge_fermentation)
      r.fridge_temperature

/-- Embeds `NeapolitanCalculator.calculate_yeast_percentage`: validation,
then the three-way dispatch on which fermentation legs are zero, then the
yeast-percentage lookup for the resulting duration column. -/
def calculate_yeast_percentage (e : DataExtractor) (r : PizzaRecipe) :
    Except PizzaError ℚ := do
  _validate_fermentation_conditions r
  let duration_column ←
    if r.room_fermentation = 0 then
      e.get_closest_duration_column r.fridge_fermentation r.fridge_temperature
    else if r.fridge_fermentation = 0 then
      e.get_closest_duration_column r.room_fermentation r.room_temperature
    else
      _get_combined_duration r e
  e.get_yeast_percentage r.yeast_type duration_column

end NeapolitanCalculator

/-- Full observable state of a constructed `PizzaRecipe` object: the input
attributes plus the two derived attributes. -/
structure RecipeState where
  inputs : PizzaRecipe
  flour_weight : ℚ
  yeast_percentage : ℚ
deriving DecidableEq

namespace PizzaRecipe

open NeapolitanCalculator

/-- Embeds `PizzaRecipe.__init__` (with the `NeapolitanCalculator`): inputs
are stored, then `recalculate_flour_weight` and
`recalculate_yeast_percentage` run; an exception in either aborts
construction. -/
def init (e : DataExtractor) (r : PizzaRecipe) : Except PizzaError RecipeState := do
  let fw ← calculate_flour_weight r
  let yp ← calculate_yeast_percentage e r
  return { inputs := r, flour_weight := fw, yeast_percentage := yp }

/-!
Setters generated by `auto_property` (src/recipe/utilities.py).  Each setter
compares the new value with the current private attribute; when different it
first stores the new value (`setattr`), then calls the recalculate method.
The recalculate method evaluates the calculator on the (already mutated)
object and only assigns the derived attribute when that evaluation returns;
a raised error therefore propagates out of the setter with the input
attribute already holding the new value and the derived attribute still
holding its previous value.  Each setter returns the post-call object state
together with the exception, if any, that escaped the call.
-/

/-- Setter for `salt_percentage` (recalculates flour weight). -/
def set_salt_percentage (e : DataExtractor) (st : RecipeState) (value : ℚ) :
    RecipeState × Option PizzaError :=
  if value ≠ st.inputs.salt_percentage then
    let inputs := { st.inputs with salt_percentage := value }
    match calculate_flour_weight inputs with
    | .ok fw => ({ st with inputs := inputs, flour_weight := fw }, none)
    | .error err => ({ st with inputs := inputs }, some err)
  else (st, none)

/-- Setter for `oil_percentage` (recalculates flour weight). -/
def set_oil_percentage (e : DataExtractor) (st : RecipeState) (value : ℚ) :
    RecipeState × Option PizzaError :=
  if value ≠ st.inputs.oil_percentage then
    let inputs := { st.inputs with oil_percentage := value }
    match calculate_flour_weight inputs with
    | .ok fw => ({ st with inputs := inputs, flour_weight := fw }, none)
    | .error err => ({ st with inputs := inputs }, some err)
  else (st, none)

/-- Setter for `hydration` (recalculates flour weight). -/
def set_hydration (e : DataExtractor) (st : RecipeState) (value : ℚ) :
    RecipeState × Option PizzaError :=
  if value ≠ st.inputs.hydration then
    let inputs := { st.inputs with hydration := value }
    match calculate_flour_weight inputs with
    | .ok fw => ({ st with inputs := inputs, flour_weight := fw }, none)
    | .error err => ({ st with inputs := inputs }, some err)
  else (st, none)

/-- Setter for `ball_weight` (recalculates flour weight). -/
def set_ball_weight (e : DataExtractor) (st : RecipeState) (value : ℚ) :
    RecipeState × Option PizzaError :=
  if value ≠ st.inputs.ball_weight then
    let inputs := { st.inputs with ball_weight := value }
    match calculate_flour_weight inputs with
    | .ok fw => ({ st with inputs := inputs, flour_weight := fw }, none)
    | .error err => ({ st with inputs := inputs }, some err)
  else (st, none)

/-- Setter for `number_of_balls` (recalculates flour weight). -/
def set_number_of_balls (e : DataExtractor) (st : RecipeState) (value : ℚ) :
    RecipeState × Option PizzaError :=
  if value ≠ st.inputs.number_of_balls then
    let inputs := { st.inputs with number_of_balls := value }
    match calculate_flour_weight inputs with
    | .ok fw => ({ st with inputs := inputs, flour_weight := fw }, none)
    | .error err => ({ st with inputs := inputs }, some err)
  else (st, none)

/-- Setter for `yeast_type` (recalculates yeast percentage). -/
def set_yeast_type (e : DataExtractor) (st : RecipeState) (value : String) :
    RecipeState × Option PizzaError :=
  if value ≠ st.inputs.yeast_type then
    let inputs := { st.inputs with yeast_type := value }
    match calculate_yeast_percentage e inputs with
    | .ok yp => ({ st with inputs := inputs, yeast_percentage := yp }, none)
    | .error err => ({ st with inputs := inputs }, some err)
  else (st, none)

/-- Setter for `room_temperature` (recalculates yeast percentage). -/
def set_room_temperature (e : DataExtractor) (st : RecipeState) (value : ℚ) :
    RecipeState × Option PizzaError :=
  if value ≠ st.inputs.room_temperature then
    let inputs := { st.inputs with room_temperature := value }
    match calculate_yeast_percentage e inputs with
    | .ok yp => ({ st with inputs := inputs, yeast_percentage := yp }, none)
    | .error err => ({ st with inputs := inputs }, some err)
  else (st, none)

/-- Setter for `fridge_temperature` (recalculates yeast percentage). -/
def set_fridge_temperature (e : DataExtractor) (st : RecipeState) (value : ℚ) :
    RecipeState × Option PizzaError :=
  if value ≠ st.inputs.fridge_temperature then
    let inputs := { st.inputs with fridge_temperature := value }
    match calculate_yeast_percentage e inputs with
    | .ok yp => ({ st with inputs := inputs, yeast_percentage := yp }, none)
    | .error err => ({ st with inputs := inputs }, some err)
  else (st, none)

/-- Setter for `room_fermentation` (recalculates yeast percentage). -/
def set_room_fermentation (e : DataExtractor) (st : RecipeState) (value : ℚ) :
    RecipeState × Option PizzaError :=
  if value ≠ st.inputs.room_fermentation then
    let inputs := { st.inputs with room_fermentation := value }
    match calculate_yeast_percentage e inputs with
    | .ok yp => ({ st with inputs := inputs, yeast_percentage := yp }, none)
    | .error err => ({ st with inputs := inputs }, some err)
  else (st, none)

/-- Setter for `fridge_fermentation` (recalculates yeast percentage). -/
def set_fridge_fermentation (e : DataExtractor) (st : RecipeState) (value : ℚ) :
    RecipeState × Option PizzaError :=
  if value ≠ st.inputs.fridge_fermentation then
    let inputs := { st.inputs with fridge_fermentation := value }
    match calculate_yeast_percentage e inputs with
    | .ok yp => ({ st with inputs := inputs, yeast_percentage := yp }, none)
    | .error err => ({ st with inputs := inputs }, some err)
  else (st, none)

end PizzaRecipe

/-- The `base_recipe` record written by `RecipeManager.save_recipe_as_json`
(file path and `info` metadata elided): the input fields of the recipe, with
the two fermentation durations truncated by `int(...)`. -/
structure BaseRecipeRecord where
  pizza_style : String
  salt_percentage : ℚ
  oil_percentage : ℚ
  yeast_type : String
  hydration : ℚ
  ball_weight : ℚ
  number_of_balls : ℚ
  room_temperature : ℚ
  room_fermentation : Int
  fridge_temperature : ℚ
  fridge_fermentation : Int
deriving DecidableEq

namespace RecipeManager

/-- Embeds the record construction of `save_recipe_as_json` (the dialog and
file write are I/O glue around this record). -/
def save_recipe_record (st : RecipeState) : BaseRecipeRecord :=
  { pizza_style := "Neo-Neapolitan"
    salt_percentage := st.inputs.salt_percentage
    oil_percentage := st.inputs.oil_percentage
    yeast_type := st.inputs.yeast_type
    hydration := st.inputs.hydration
    ball_weight := st.inputs.ball_weight
    number_of_balls := st.inputs.number_of_balls
    room_temperature := st.inputs.room_temperature
    room_fermentation := pyIntTrunc st.inputs.room_fermentation
    fridge_temperature := st.inputs.fridge_temperature
    fridge_fermentation := pyIntTrunc st.inputs.fridge_fermentation }

/-- Reads the persisted record back into `PizzaRecipe.__init__` inputs. -/
def record_to_inputs (b : BaseRecipeRecord) : PizzaRecipe :=
  { salt_percentage := b.salt_percentage
    oil_percentage := b.oil_percentage
    hydration := b.hydration
    ball_weight := b.ball_weight
    number_of_balls := b.number_of_balls
    yeast_type := b.yeast_type
    room_temperature := b.room_temperature
    fridge_temperature := b.fridge_temperature
    room_fermentation := (b.room_fermentation : ℚ)
    fridge_fermentation := (b.fridge_fermentation : ℚ) }

/-- Embeds `RecipeManager.to_recipe`: `get_pizza_calculator` recognizes only
the `"Neo-Neapolitan"` style (else `NO_CALCULATOR_FOUND`), then constructs a
`PizzaRecipe` from the record. -/
def to_recipe (e : DataExtractor) (b : BaseRecipeRecord) :
    Except PizzaError RecipeState :=
  if b.pizza_style = "Neo-Neapolitan" then
    PizzaRecipe.init e (record_to_inputs b)
  else
    .error .noCalculatorFound

end RecipeManager

/-!
Concrete data used by the closed theorems below: a small extractor state in
the shape of the repository's yeast table (yeast-type rows first, then
temperature rows; column 0 holds labels/temperatures, columns 1–3 hold
durations resp. percentages), and a few concrete recipes.
-/

/-- A small concrete `DataExtractor` state: two yeast-type rows of
percentages, then temperature rows for 20 °C (durations 2, 4, 6) and 4 °C
(durations 12, 24, 48). -/
def sampleExtractor : DataExtractor :=
  { csv_data :=
      [[Cell.text, Cell.num (1/2), Cell.num (3/10), Cell.num (1/10)],
       [Cell.text, Cell.num (4/5), Cell.num (1/2), Cell.num (1/5)],
       [Cell.num 20, Cell.num 2, Cell.num 4, Cell.num 6],
       [Cell.num 4, Cell.num 12, Cell.num 24, Cell.num 48]]
    temperature_column := 0
    duration_column_range := (1, 4)
    temperature_range := (2, 4)
    yeast_types := ["IDY", "ADY"] }

/-- A recipe with both fermentation legs active (room 4 h at 20 °C, fridge
20 h at 4 °C). -/
def sampleRecipe : PizzaRecipe :=
  { salt_percentage := 5/2
    oil_percentage := 2
    hydration := 65
    ball_weight := 250
    number_of_balls := 4
    yeast_type := "IDY"
    room_temperature := 20
    fridge_temperature := 4
    room_fermentation := 4
    fridge_fermentation := 20 }

/-- The object state constructed by `PizzaRecipe.init` from `sampleRecipe`
and `sampleExtractor`. -/
def sampleState : RecipeState :=
  { inputs := sampleRecipe, flour_weight := 200000/339, yeast_percentage := 1/10 }

/-- A recipe with both fermentation durations zero but both temperatures
set. -/
def zeroLegsRecipe : PizzaRecipe :=
  { sampleRecipe with
    room_fermentation := 0
    fridge_fermentation := 0 }

/-- A recipe with a non-zero room fermentation but a zero room
temperature. -/
def mismatchRecipe : PizzaRecipe :=
  { sampleRecipe with
    room_temperature := 0
    room_fermentation := 6
    fridge_fermentation := 0 }

/-- An extractor whose 20 °C row holds the adjacent durations 3 and 4. -/
def fractionExtractor : DataExtractor :=
  { csv_data :=
      [[Cell.text, Cell.num (3/10), Cell.num (1/10)],
       [Cell.num 20, Cell.num 3, Cell.num 4]]
    temperature_column := 0
    duration_column_range := (1, 3)
    temperature_range := (1, 2)
    yeast_types := ["IDY"] }

/-- A recipe with the fractional room fermentation duration 3.5 h. -/
def fractionRecipe : PizzaRecipe :=
  { sampleRecipe with
    room_fermentation := 7/2
    fridge_temperature := 0
    fridge_fermentation := 0 }

/-- An extractor whose single temperature row (20 °C) has only blank cells
in the configured duration column range. -/
def emptyRowExtractor : DataExtractor :=
  { csv_data :=
      [[Cell.text, Cell.num (1/2)],
       [Cell.num 20, Cell.blank, Cell.blank, Cell.blank]]
    temperature_column := 0
    duration_column_range := (1, 4)
    temperature_range := (1, 2)
    yeast_types := ["IDY"] }

/-- A recipe with all fermentation inputs zero. -/
def allZeroRecipe : PizzaRecipe :=
  { sampleRecipe with
    room_temperature := 0
    fridge_temperature := 0
    room_fermentation := 0
    fridge_fermentation := 0 }

/-!
Helper lemmas about the Python-builtin models.
-/

/-- The running minimum of `pyMin1` splits its input: the result is the first
element attaining the minimal key, every element strictly before it has a
strictly larger key, and it is a lower bound for the whole list. -/
theorem pyMin1_split (k : ℚ → ℚ) :
    ∀ (vs : List ℚ) (v : ℚ), ∃ l₁ l₂ : List ℚ,
      v :: vs = l₁ ++ pyMin1 k v vs :: l₂ ∧
      (∀ y ∈ l₁, k (pyMin1 k v vs) < k y) ∧
      (∀ y ∈ v :: vs, k (pyMin1 k v vs) ≤ k y) := by
  intro vs
  induction vs with
  | nil =>
    intro v
    refine ⟨[], [], rfl, by simp, ?_⟩
    intro y hy
    simp only [List.mem_singleton] at hy
    subst hy
    simp [pyMin1]
  | cons y ys ih =>
    intro v
    by_cases h : k y < k v
    · have hm : pyMin1 k v (y :: ys) = pyMin1 k y ys := by simp [pyMin1, h]
      obtain ⟨l₁, l₂, heq, hpre, hmin⟩ := ih y
      have hmy : k (pyMin1 k y ys) ≤ k y := hmin y (List.mem_cons_self y ys)
      have hmv : k (pyMin1 k y ys) < k v := lt_of_le_of_lt hmy h
      refine ⟨v :: l₁, l₂, ?_, ?_, ?_⟩
      · rw [hm, List.cons_append, ← heq]
      · intro z hz
        rw [hm]
        rcases List.mem_cons.mp hz with hz | hz
        · subst hz; exact hmv
        · exact hpre z hz
      · intro z hz
        rw [hm]
        rcases List.mem_cons.mp hz with hz | hz
        · subst hz; exact le_of_lt hmv
        · exact hmin z hz
    · have hm : pyMin1 k v (y :: ys) = pyMin1 k v ys := by simp [pyMin1, h]
      have hvy : k v ≤ k y := le_of_not_lt h
      obtain ⟨l₁, l₂, heq, hpre, hmin⟩ := ih v
      cases l₁ with
      | nil =>
        have hveq : v = pyMin1 k v ys := by
          simpa using congrArg (fun l => l.head?) heq
        refine ⟨[], y :: ys, ?_, by simp, ?_⟩
        · rw [hm, List.nil_append, ← hveq]
        · intro z hz
          rw [hm, ← hveq]
          rcases List.mem_cons.mp hz with hz | hz
          · subst hz; exact le_refl _
          · rcases List.mem_cons.mp hz with hz | hz
            · subst hz; exact hvy
            · have h2 := hmin z (List.mem_cons_of_mem v hz)
              rwa [← hveq] at h2
      | cons w l₁' =>
        have hw : v = w := by
          simpa using congrArg (fun l => l.head?) heq
        have hys : ys = l₁' ++ pyMin1 k v ys :: l₂ := by
          simpa using congrArg List.tail heq
        have hmv : k (pyMin1 k v ys) < k v := by
          have h2 := hpre w (List.mem_cons_self w l₁')
          rwa [← hw] at h2
        refine ⟨v :: y :: l₁', l₂, ?_, ?_, ?_⟩
        · rw [hm]
          simp only [List.cons_append]
          rw [← hys]
        · intro z hz
          rw [hm]
          rcases List.mem_cons.mp hz with hz | hz
          · subst hz; exact hmv
          · rcases List.mem_cons.mp hz with hz | hz
            · subst hz; exact lt_of_lt_of_le hmv hvy
            · exact hpre z (List.mem_cons_of_mem w hz)
        · intro z hz
          rw [hm]
          rcases List.mem_cons.mp hz with hz | hz
          · subst hz; exact hmin _ (List.mem_cons_self _ _)
          · rcases List.mem_cons.mp hz with hz | hz
            · subst hz
              exact le_trans (hmin _ (List.mem_cons_self _ _)) hvy
            · exact hmin z (List.mem_cons_of_mem v hz)

/-- Scanning `list.index` over a split whose first part avoids `x` finds
exactly the split position. -/
theorem pyIndexAux_append (x : ℚ) (l₁ l₂ : List ℚ) (h : ∀ y ∈ l₁, y ≠ x) :
    pyIndexAux x (l₁ ++ x :: l₂) = some l₁.length := by
  induction l₁ with
  | nil => simp [pyIndexAux]
  | cons a l ih =>
    have ha : ¬(a = x) := h a (List.mem_cons_self a l)
    have ih2 := ih (fun y hy => h y (List.mem_cons_of_mem a hy))
    simp [pyIndexAux, ha, ih2]

/-- Characterization of `pyMinBy` on a non-empty list. -/
theorem pyMinBy_spec (k : ℚ → ℚ) (xs : List ℚ) (h : xs ≠ []) :
    ∃ m l₁ l₂, pyMinBy k xs = .ok m ∧ xs = l₁ ++ m :: l₂ ∧
      (∀ y ∈ l₁, k m < k y) ∧ (∀ y ∈ xs, k m ≤ k y) := by
  match xs, h with
  | x :: xs', _ =>
    obtain ⟨l₁, l₂, heq, hpre, hmin⟩ := pyMin1_split k xs' x
    exact ⟨pyMin1 k x xs', l₁, l₂, rfl, heq, hpre, hmin⟩

/-- Composition used in the nearest-temperature lookup: `min` with a key
followed by `list.index` of the minimizer lands on the first index attaining
the minimal key. -/
theorem min_then_index_spec (k : ℚ → ℚ) (xs : List ℚ) (h : xs ≠ []) :
    ∃ m l₁ l₂, xs = l₁ ++ m :: l₂ ∧ pyMinBy k xs = .ok m ∧
      pyIndex xs m = .ok l₁.length ∧
      (∀ y ∈ l₁, k m < k y) ∧ (∀ y ∈ xs, k m ≤ k y) := by
  obtain ⟨m, l₁, l₂, hok, heq, hpre, hmin⟩ := pyMinBy_spec k xs h
  have hne : ∀ y ∈ l₁, y ≠ m := by
    intro y hy he
    subst he
    exact absurd (hpre y hy) (lt_irrefl _)
  refine ⟨m, l₁, l₂, heq, hok, ?_, hpre, hmin⟩
  rw [heq]
  simp [pyIndex, pyIndexAux_append m l₁ l₂ hne]

/-- The `[-1]` element of the index comprehension: when some index below `n`
satisfies `p`, the last element of `filter p (range n)` is the largest such
index. -/
theorem getLast_filter_range (p : Nat → Bool) :
    ∀ n j : Nat, j < n → p j = true →
      ∃ i, ((List.range n).filter p).getLast? = some i ∧ i < n ∧ p i = true ∧
        ∀ j2, i < j2 → j2 < n → p j2 = false := by
  intro n
  induction n with
  | zero => intro j hj _; omega
  | succ n ih =>
    intro j hj hpj
    by_cases hp : p n = true
    · refine ⟨n, ?_, Nat.lt_succ_self n, hp, ?_⟩
      · rw [List.range_succ, List.filter_append]
        simp [hp]
      · intro j2 h1 h2; omega
    · have hp' : p n = false := by
        cases hpn : p n
        · rfl
        · exact absurd hpn hp
      have hjn : j ≠ n := fun he => hp (he ▸ hpj)
      obtain ⟨i, hlast, hin, hpi, hafter⟩ := ih j (by omega) hpj
      refine ⟨i, ?_, by omega, hpi, ?_⟩
      · rw [List.range_succ, List.filter_append]
        simpa [hp'] using hlast
      · intro j2 h1 h2
        rcases Nat.lt_succ_iff_lt_or_eq.mp h2 with h3 | h3
        · exact hafter j2 h1 h3
        · subst h3; exact hp'

/-- Successful `pyFloatList` runs are pointwise `float` parses. -/
theorem pyFloatList_ok :
    ∀ (cs : List Cell) (vs : List ℚ), pyFloatList cs = .ok vs →
      cs.length = vs.length ∧
      ∀ i (hc : i < cs.length) (hv : i < vs.length),
        (cs.get ⟨i, hc⟩).toFloat = some (vs.get ⟨i, hv⟩) := by
  intro cs
  induction cs with
  | nil =>
    intro vs h
    simp only [pyFloatList] at h
    cases h
    exact ⟨rfl, fun i hc _ => absurd hc (by simp)⟩
  | cons c cs' ih =>
    intro vs h
    simp only [pyFloatList] at h
    cases htf : c.toFloat with
    | none => rw [htf] at h; cases h
    | some q =>
      rw [htf] at h
      cases hrec : pyFloatList cs' with
      | error err => rw [hrec] at h; cases h
      | ok vs' =>
        rw [hrec] at h
        simp only [Except.map] at h
        cases h
        obtain ⟨hlen, hpt⟩ := ih vs' hrec
        refine ⟨by simp [hlen], ?_⟩
        intro i hc hv
        cases i with
        | zero => simpa using htf
        | succ i' =>
          have hc' : i' < cs'.length := by simpa using hc
          have hv' : i' < vs'.length := by simpa using hv
          simpa using hpt i' hc' hv'

/-- A `filterMap` that loses no length is a pointwise total map. -/
theorem filterMap_full {α β : Type _} (f : α → Option β) :
    ∀ (l : List α) (res : List β), l.filterMap f = res → res.length = l.length →
      ∀ i (hl : i < l.length) (hr : i < res.length),
        f (l.get ⟨i, hl⟩) = some (res.get ⟨i, hr⟩) := by
  intro l
  induction l with
  | nil => intro res _ _ i hl _; exact absurd hl (by simp)
  | cons a l' ih =>
    intro res hfm hlen i hl hr
    cases hfa : f a with
    | none =>
      exfalso
      rw [List.filterMap_cons_none hfa] at hfm
      have hle : (l'.filterMap f).length ≤ l'.length := l'.length_filterMap_le f
      rw [hfm, hlen] at hle
      simp at hle
    | some b =>
      rw [List.filterMap_cons_some hfa] at hfm
      cases hfm
      cases i with
      | zero => simpa using hfa
      | succ i' =>
        have hl' : i' < l'.length := by simpa using hl
        have hr' : i' < (l'.filterMap f).length := by simpa using hr
        simpa using ih (l'.filterMap f) rfl (by simp only [List.length_cons] at hlen; omega) i' hl' hr'

/-- The element at the split position of `l₁ ++ m :: l₂` is `m`. -/
theorem get_append_cons {α : Type _} (m : α) :
    ∀ (l₁ l₂ : List α) (h : l₁.length < (l₁ ++ m :: l₂).length),
      (l₁ ++ m :: l₂).get ⟨l₁.length, h⟩ = m := by
  intro l₁
  induction l₁ with
  | nil => intro l₂ h; rfl
  | cons a l ih => intro l₂ h; simpa using ih l₂ (by simpa using h)

/-- Elements of `List.range' s n` (step 1) by position. -/
theorem range'_get (s n : Nat) :
    ∀ i (h : i < (List.range' s n).length), (List.range' s n).get ⟨i, h⟩ = s + i := by
  induction n generalizing s with
  | zero => intro i h; simp at h
  | succ n ih =>
    intro i h
    cases i with
    | zero => simp [List.range']
    | succ i' =>
      have h' : i' < (List.range' (s + 1) n).length := by
        simpa [List.range'] using h
      have := ih (s + 1) i' h'
      simp only [List.range'] at h ⊢
      simpa [this, Nat.add_assoc, Nat.add_comm 1 i'] using this

/-- Inversion of the temperature-row selector of
`get_temperature_value_range`: a selected cell comes from an existing row
whose temperature column holds that (non-blank) cell. -/
theorem temperature_selector_inv (e : DataExtractor) (i : Nat) (c : Cell)
    (h : e.temperature_selector i = some c) :
    ∃ row, e.csv_data[i]? = some row ∧
      row[e.temperature_column]? = some c ∧ c.isBlank = false := by
  unfold DataExtractor.temperature_selector at h
  split at h
  · cases h
  · rename_i row hrow
    split at h
    · cases h
    · rename_i c0 hc
      by_cases hb : c0.isBlank = true
      · rw [if_pos hb] at h; cases h
      · rw [if_neg hb] at h
        cases h
        exact ⟨row, hrow, hc, by simpa using hb⟩

@[simp] theorem except_bind_ok {ε α β : Type _} (a : α) (f : α → Except ε β) :
    (Except.ok a >>= f) = f a := rfl

@[simp] theorem except_bind_error {ε α β : Type _} (err : ε) (f : α → Except ε β) :
    ((Except.error err : Except ε α) >>= f) = Except.error err := rfl

@[simp] theorem except_pure {ε α : Type _} (a : α) :
    (pure a : Except ε α) = Except.ok a := rfl

/-- C1: the claim fails on the code. In strict mode the row lookup never
succeeds for any temperature: the membership test compares the one-decimal
string rendering of the temperature against a list of floats, which is false
in Python for every element, so the lookup falls through to the strict-mode
raise.  In particular, on a table whose configured range holds the values
[20.0, 4.0], looking up 20.0 (an exact one-decimal match) raises
`TEMPERATURE_NOT_FOUND` instead of returning the matching row. -/
theorem C1_strict_mode_always_raises :
    (∀ (e : DataExtractor) (t : ℚ) (r : Nat),
        e.get_temperature_row_index t true ≠ .ok r) ∧
    sampleExtractor.get_temperature_value_range = .ok [20, 4] ∧
    sampleExtractor.get_temperature_row_index 20 true =
      .error .temperatureNotFound := by
  refine ⟨?_, by decide, by decide⟩
  intro e t r h
  unfold DataExtractor.get_temperature_row_index at h
  cases hv : e.get_temperature_value_range with
  | error err =>
    rw [hv, except_bind_error] at h
    cases h
  | ok tvr =>
    rw [hv, except_bind_ok] at h
    simp [DataExtractor.temperature_str_in_range] at h

/-- C7: nearest mode (strict=false) returns the row of the table temperature
with minimum absolute difference from the input; when two table temperatures
are equidistant, the first candidate in range order is chosen.  Stated for a
table whose configured row range produced one temperature value per row
(`hfull`, the spec's contiguity invariant): the returned row index is the
range start plus the position of the first minimizer, and that row's
temperature column holds exactly the minimizing value. -/
theorem C7_nearest_mode_first_minimum (e : DataExtractor) (t : ℚ) (vals : List ℚ)
    (hv : e.get_temperature_value_range = .ok vals) (hne : vals ≠ [])
    (hfull : vals.length = e.temperature_range.2 - e.temperature_range.1) :
    ∃ m l₁ l₂, vals = l₁ ++ m :: l₂ ∧
      e.get_temperature_row_index t false =
        .ok (e.temperature_range.1 + l₁.length) ∧
      (∃ row c, e.csv_data[e.temperature_range.1 + l₁.length]? = some row ∧
        row[e.temperature_column]? = some c ∧ c.toFloat = some m) ∧
      (∀ y ∈ vals, pyAbs (m - t) ≤ pyAbs (y - t)) ∧
      (∀ y ∈ l₁, pyAbs (m - t) < pyAbs (y - t)) := by
  obtain ⟨m, l₁, l₂, heq, hmin_ok, hidx, hpre, hminle⟩ :=
    min_then_index_spec (fun x => pyAbs (x - t)) vals hne
  subst heq
  refine ⟨m, l₁, l₂, rfl, ?_, ?_, hminle, hpre⟩
  · unfold DataExtractor.get_temperature_row_index
    rw [hv, except_bind_ok]
    simp only [DataExtractor.temperature_str_in_range, Bool.false_eq_true, if_false]
    simp [hmin_ok, hidx]
  · unfold DataExtractor.get_temperature_value_range at hv
    obtain ⟨hlen, hpt⟩ := pyFloatList_ok _ _ hv
    have hi0v : l₁.length < (l₁ ++ m :: l₂).length := by simp
    have hi0s : l₁.length <
        ((List.range' e.temperature_range.1
          (e.temperature_range.2 - e.temperature_range.1)).filterMap
            e.temperature_selector).length := by
      rw [hlen]; exact hi0v
    have hrl : (List.range' e.temperature_range.1
        (e.temperature_range.2 - e.temperature_range.1)).length =
        e.temperature_range.2 - e.temperature_range.1 := by simp
    have hseln : ((List.range' e.temperature_range.1
        (e.temperature_range.2 - e.temperature_range.1)).filterMap
          e.temperature_selector).length =
        (List.range' e.temperature_range.1
          (e.temperature_range.2 - e.temperature_range.1)).length := by
      rw [hlen, hrl, hfull]
    have hi0r : l₁.length < (List.range' e.temperature_range.1
        (e.temperature_range.2 - e.temperature_range.1)).length := by
      rw [← hseln]; exact hi0s
    have hfm := filterMap_full e.temperature_selector _ _ rfl hseln
      l₁.length hi0r hi0s
    rw [range'_get] at hfm
    obtain ⟨row, hrow, hcell, _⟩ := temperature_selector_inv e _ _ hfm
    have htf := hpt l₁.length hi0s hi0v
    rw [get_append_cons] at htf
    exact ⟨row, _, hrow, hcell, htf⟩

/-- Witness for C7 on the concrete table: looking up 10 °C between the table
temperatures 20.0 and 4.0 picks 4.0 (distance 6 < 10) at row 3. -/
theorem C7_nearest_mode_first_minimum_witness :
    ∃ m l₁ l₂, ([20, 4] : List ℚ) = l₁ ++ m :: l₂ ∧
      sampleExtractor.get_temperature_row_index 10 false =
        .ok (sampleExtractor.temperature_range.1 + l₁.length) ∧
      (∃ row c,
        sampleExtractor.csv_data[sampleExtractor.temperature_range.1 + l₁.length]? =
          some row ∧
        row[sampleExtractor.temperature_column]? = some c ∧ c.toFloat = some m) ∧
      (∀ y ∈ ([20, 4] : List ℚ), pyAbs (m - 10) ≤ pyAbs (y - 10)) ∧
      (∀ y ∈ l₁, pyAbs (m - 10) < pyAbs (y - 10)) :=
  C7_nearest_mode_first_minimum sampleExtractor 10 [20, 4]
    (by decide) (by decide) (by decide)

/-- The `getD` of a valid index is the `get`. -/
theorem getD_eq_get {α : Type _} (d : α) :
    ∀ (l : List α) (i : Nat) (h : i < l.length), l.getD i d = l.get ⟨i, h⟩ := by
  intro l
  induction l with
  | nil => intro i h; simp at h
  | cons a l' ih =>
    intro i h
    cases i with
    | zero => rfl
    | succ i' => simpa using ih i' (by simpa using h)

/-- Characterization of `_find_closest_duration_column` on a row inside the
grid and a non-empty duration list: it returns the relative position of the
last duration at minimal absolute difference from the target, plus the
first-non-empty-column offset of the row. -/
theorem find_closest_spec (e : DataExtractor) (row : Nat) (D : ℚ) (vals : List ℚ)
    (hrow : row < e.csv_data.length) (hne : vals ≠ []) :
    ∃ i off, e._get_null_offset row e.duration_column_range.1 = .ok off ∧
      e._find_closest_duration_column row D vals = .ok (i + off) ∧
      ∃ hi : i < vals.length,
        (∀ j (hj : j < vals.length),
          pyAbs (vals.get ⟨i, hi⟩ - D) ≤ pyAbs (vals.get ⟨j, hj⟩ - D)) ∧
        (∀ j (hj : j < vals.length), i < j →
          pyAbs (vals.get ⟨i, hi⟩ - D) < pyAbs (vals.get ⟨j, hj⟩ - D)) := by
  have hoff : ∃ off, e._get_null_offset row e.duration_column_range.1 = .ok off := by
    unfold DataExtractor._get_null_offset
    rw [if_neg (not_le.mpr hrow)]
    cases hfind : (List.range' e.duration_column_range.1
        ((e.csv_data.getD row []).length - e.duration_column_range.1)).find?
        (fun i => !((e.csv_data.getD row []).getD i Cell.blank).isBlank) with
    | none => exact ⟨0, rfl⟩
    | some i2 => exact ⟨i2, rfl⟩
  obtain ⟨off, hoff⟩ := hoff
  have hdne : vals.map (fun val => pyAbs (val - D)) ≠ [] := by
    simpa using hne
  obtain ⟨cd, dl₁, dl₂, hcd_ok, hdeq, _, hdmin⟩ :=
    pyMinBy_spec id (vals.map (fun val => pyAbs (val - D))) hdne
  have hcd_mem : cd ∈ vals.map (fun val => pyAbs (val - D)) := by
    rw [hdeq]; exact List.mem_append_right _ (List.mem_cons_self _ _)
  obtain ⟨a, ha_mem, ha_eq⟩ := List.mem_map.mp hcd_mem
  obtain ⟨⟨j0, hj0⟩, hj0_eq⟩ := List.mem_iff_get.mp ha_mem
  have hp0 : (fun i => decide (pyAbs (vals.getD i 0 - D) = cd)) j0 = true := by
    simp only [decide_eq_true_eq]
    rw [getD_eq_get 0 vals j0 hj0, hj0_eq, ha_eq]
  obtain ⟨i, hlast, hin, hpi, hafter⟩ :=
    getLast_filter_range (fun i => decide (pyAbs (vals.getD i 0 - D) = cd))
      vals.length j0 hj0 hp0
  have hpi' : pyAbs (vals.get ⟨i, hin⟩ - D) = cd := by
    have := of_decide_eq_true hpi
    rwa [getD_eq_get 0 vals i hin] at this
  have hminAll : ∀ j (hj : j < vals.length), cd ≤ pyAbs (vals.get ⟨j, hj⟩ - D) := by
    intro j hj
    exact hdmin _ (List.mem_map_of_mem _ (vals.get_mem j hj))
  refine ⟨i, off, hoff, ?_, hin, ?_, ?_⟩
  · simp only [DataExtractor._find_closest_duration_column, hcd_ok, hlast, hoff,
      except_bind_ok, except_pure]
  · intro j hj
    rw [hpi']
    exact hminAll j hj
  · intro j hj hij
    have hne2 : pyAbs (vals.get ⟨j, hj⟩ - D) ≠ cd := by
      have hnp := of_decide_eq_false (hafter j hij hj)
      rwa [getD_eq_get 0 vals j hj] at hnp
    rw [hpi']
    exact lt_of_le_of_ne (hminAll j hj) (Ne.symm hne2)

/-- C2: for a duration D and temperature T whose nearest-temperature row has
a non-empty collected duration list, `get_closest_duration_column` returns
the position (within the collected list) of the last duration at minimal
absolute difference from D, plus the row's first-non-empty-column offset;
the result is therefore at least that offset. -/
theorem C2_closest_duration_last_tie_plus_offset (e : DataExtractor) (D T : ℚ)
    (row : Nat) (vals : List ℚ)
    (h1 : e.get_temperature_row_index T false = .ok row)
    (h2 : e.get_duration_value_range row = .ok vals)
    (hne : vals ≠ []) :
    ∃ i off, e._get_null_offset row e.duration_column_range.1 = .ok off ∧
      e.get_closest_duration_column D T = .ok (i + off) ∧
      off ≤ i + off ∧
      ∃ hi : i < vals.length,
        (∀ j (hj : j < vals.length),
          pyAbs (vals.get ⟨i, hi⟩ - D) ≤ pyAbs (vals.get ⟨j, hj⟩ - D)) ∧
        (∀ j (hj : j < vals.length), i < j →
          pyAbs (vals.get ⟨i, hi⟩ - D) < pyAbs (vals.get ⟨j, hj⟩ - D)) := by
  have hrow : row < e.csv_data.length := by
    by_contra hcon
    push_neg at hcon
    unfold DataExtractor.get_duration_value_range at h2
    rw [if_pos hcon] at h2
    injection h2 with h3
    exact hne h3.symm
  obtain ⟨i, off, hoff, hfind, hi, hmin, hlast⟩ :=
    find_closest_spec e row D vals hrow hne
  refine ⟨i, off, hoff, ?_, Nat.le_add_left off i, hi, hmin, hlast⟩
  simp only [DataExtractor.get_closest_duration_column, h1, h2, except_bind_ok]
  exact hfind

/-- Witness for C2 on the concrete table: at 20 °C the durations are
[2, 4, 6]; the target 3 is equidistant from 2 and 4 and the later one (4, at
relative position 1) wins. -/
theorem C2_closest_duration_last_tie_plus_offset_witness :
    ∃ i off,
      sampleExtractor._get_null_offset 2 sampleExtractor.duration_column_range.1 =
        .ok off ∧
      sampleExtractor.get_closest_duration_column 3 20 = .ok (i + off) ∧
      off ≤ i + off ∧
      ∃ hi : i < ([2, 4, 6] : List ℚ).length,
        (∀ j (hj : j < ([2, 4, 6] : List ℚ).length),
          pyAbs (([2, 4, 6] : List ℚ).get ⟨i, hi⟩ - 3) ≤
            pyAbs (([2, 4, 6] : List ℚ).get ⟨j, hj⟩ - 3)) ∧
        (∀ j (hj : j < ([2, 4, 6] : List ℚ).length), i < j →
          pyAbs (([2, 4, 6] : List ℚ).get ⟨i, hi⟩ - 3) <
            pyAbs (([2, 4, 6] : List ℚ).get ⟨j, hj⟩ - 3)) :=
  C2_closest_duration_last_tie_plus_offset sampleExtractor 3 20 2 [2, 4, 6]
    (by with_unfolding_all rfl) (by decide) (by decide)

/-- C10: `get_closest_duration_column` has the implicit precondition that
the resolved row's collected duration list is non-empty: under it the
operation returns a column, and on an empty list it raises the error of
`min` on an empty sequence, which lies outside the spec's error taxonomy. -/
theorem C10_empty_duration_row_escapes_taxonomy (e : DataExtractor) (D T : ℚ)
    (row : Nat) (h1 : e.get_temperature_row_index T false = .ok row) :
    (∀ vals, e.get_duration_value_range row = .ok vals → vals ≠ [] →
      ∃ c, e.get_closest_duration_column D T = .ok c) ∧
    (e.get_duration_value_range row = .ok [] →
      e.get_closest_duration_column D T = .error .minEmptySequence ∧
      PizzaError.inTaxonomy .minEmptySequence = false) := by
  constructor
  · intro vals h2 hne
    have hrow : row < e.csv_data.length := by
      by_contra hcon
      push_neg at hcon
      unfold DataExtractor.get_duration_value_range at h2
      rw [if_pos hcon] at h2
      injection h2 with h3
      exact hne h3.symm
    obtain ⟨i, off, _, hfind, _⟩ := find_closest_spec e row D vals hrow hne
    refine ⟨i + off, ?_⟩
    simp only [DataExtractor.get_closest_duration_column, h1, h2, except_bind_ok]
    exact hfind
  · intro h2
    refine ⟨?_, rfl⟩
    simp only [DataExtractor.get_closest_duration_column, h1, h2, except_bind_ok]
    simp [DataExtractor._find_closest_duration_column, pyMinBy]

/-- Witness for C10: on the concrete table the 20 °C row is non-empty and a
column is returned, while on a table whose 20 °C row has only blank duration
cells the lookup raises the out-of-taxonomy empty-sequence error. -/
theorem C10_empty_duration_row_escapes_taxonomy_witness :
    (∃ c, sampleExtractor.get_closest_duration_column 5 20 = .ok c) ∧
    (emptyRowExtractor.get_closest_duration_column 5 20 =
        .error .minEmptySequence ∧
      PizzaError.inTaxonomy .minEmptySequence = false) :=
  ⟨(C10_empty_duration_row_escapes_taxonomy sampleExtractor 5 20 2
      (by with_unfolding_all rfl)).1 [2, 4, 6] (by decide) (by decide),
   (C10_empty_duration_row_escapes_taxonomy emptyRowExtractor 5 20 1
      (by with_unfolding_all rfl)).2 (by decide)⟩

open NeapolitanCalculator in
/-- C6: the recompute validates in source order — MismatchFermentation("Room")
when the room duration is non-zero with a zero room temperature, then
MismatchFermentation("Fridge") symmetrically, then MissingTemperatures when
both temperatures are zero — and, when validation passes, dispatches
mutually exclusively: zero room duration uses the fridge leg alone, else a
zero fridge duration uses the room leg alone, else the combined rule. -/
theorem C6_validation_order_and_dispatch (e : DataExtractor) (r : PizzaRecipe) :
    (r.room_temperature = 0 → r.room_fermentation ≠ 0 →
      calculate_yeast_percentage e r = .error (.mismatchFermentation "Room")) ∧
    (¬(r.room_temperature = 0 ∧ r.room_fermentation ≠ 0) →
      r.fridge_temperature = 0 → r.fridge_fermentation ≠ 0 →
      calculate_yeast_percentage e r = .error (.mismatchFermentation "Fridge")) ∧
    (¬(r.room_temperature = 0 ∧ r.room_fermentation ≠ 0) →
      ¬(r.fridge_temperature = 0 ∧ r.fridge_fermentation ≠ 0) →
      r.room_temperature = 0 → r.fridge_temperature = 0 →
      calculate_yeast_percentage e r = .error .missingTemperatures) ∧
    (_validate_fermentation_conditions r = .ok () →
      (r.room_fermentation = 0 →
        calculate_yeast_percentage e r =
          (e.get_closest_duration_column r.fridge_fermentation
            r.fridge_temperature).bind (e.get_yeast_percentage r.yeast_type)) ∧
      (r.room_fermentation ≠ 0 → r.fridge_fermentation = 0 →
        calculate_yeast_percentage e r =
          (e.get_closest_duration_column r.room_fermentation
            r.room_temperature).bind (e.get_yeast_percentage r.yeast_type)) ∧
      (r.room_fermentation ≠ 0 → r.fridge_fermentation ≠ 0 →
        calculate_yeast_percentage e r =
          (_get_combined_duration r e).bind
            (e.get_yeast_percentage r.yeast_type))) := by
  refine ⟨?_, ?_, ?_, ?_⟩
  · intro h1 h2
    unfold calculate_yeast_percentage _validate_fermentation_conditions
    rw [if_pos ⟨h1, h2⟩]
    rfl
  · intro hn1 h2 h3
    unfold calculate_yeast_percentage _validate_fermentation_conditions
    rw [if_neg hn1, if_pos ⟨h2, h3⟩]
    rfl
  · intro hn1 hn2 h3 h4
    unfold calculate_yeast_percentage _validate_fermentation_conditions
    rw [if_neg hn1, if_neg hn2, if_pos ⟨h3, h4⟩]
    rfl
  · intro hval
    refine ⟨?_, ?_, ?_⟩
    · intro hrf
      unfold calculate_yeast_percentage
      rw [hval, except_bind_ok, if_pos hrf]
      rfl
    · intro hrf hff
      unfold calculate_yeast_percentage
      rw [hval, except_bind_ok, if_neg hrf, if_pos hff]
      rfl
    · intro hrf hff
      unfold calculate_yeast_percentage
      rw [hval, except_bind_ok, if_neg hrf, if_neg hff]
      rfl

open NeapolitanCalculator in
/-- Witness for C6: a recipe with room fermentation 6 h but room temperature
0 fails with MismatchFermentation("Room"). -/
theorem C6_validation_order_and_dispatch_witness :
    calculate_yeast_percentage sampleExtractor mismatchRecipe =
      .error (.mismatchFermentation "Room") :=
  (C6_validation_order_and_dispatch sampleExtractor mismatchRecipe).1
    (by decide) (by decide)

open NeapolitanCalculator in
/-- C5 counterexample: a recipe with both fermentation durations zero but
non-zero temperatures (20 °C / 4 °C) does not fail with MissingTemperatures:
validation passes and the recompute returns the fridge-leg percentage for
duration 0. -/
theorem C5_counterexample_nonzero_temps :
    zeroLegsRecipe.room_fermentation = 0 ∧
    zeroLegsRecipe.fridge_fermentation = 0 ∧
    calculate_yeast_percentage sampleExtractor zeroLegsRecipe = .ok (1/2) ∧
    calculate_yeast_percentage sampleExtractor zeroLegsRecipe ≠
      .error .missingTemperatures := by
  have hok : calculate_yeast_percentage sampleExtractor zeroLegsRecipe =
      .ok (1/2) := by
    with_unfolding_all rfl
  refine ⟨rfl, rfl, hok, ?_⟩
  intro h
  rw [hok] at h
  cases h

open NeapolitanCalculator in
/-- C5 (amended): when both fermentation durations are zero and both
temperatures are also zero, the recompute fails with MissingTemperatures. -/
theorem C5_amended_missing_temperatures (e : DataExtractor) (r : PizzaRecipe)
    (hrf : r.room_fermentation = 0) (hff : r.fridge_fermentation = 0)
    (hrt : r.room_temperature = 0) (hft : r.fridge_temperature = 0) :
    calculate_yeast_percentage e r = .error .missingTemperatures := by
  unfold calculate_yeast_percentage _validate_fermentation_conditions
  rw [if_neg (fun hc => hc.2 hrf), if_neg (fun hc => hc.2 hff),
    if_pos ⟨hrt, hft⟩]
  rfl

open NeapolitanCalculator in
/-- Witness for the amended C5 at the all-zero recipe. -/
theorem C5_amended_missing_temperatures_witness :
    calculate_yeast_percentage sampleExtractor allZeroRecipe =
      .error .missingTemperatures :=
  C5_amended_missing_temperatures sampleExtractor allZeroRecipe rfl rfl rfl rfl

open NeapolitanCalculator in
/-- C3: with validation passed and both legs non-zero, the recompute's
duration column is the combined-duration computation: the room leg's closest
column at the room temperature, the cell at (nearest fridge-temperature row,
that column), failure with InvalidFermentation when that cell does not parse
as a number, otherwise the closest column at the fridge temperature for the
parsed value plus the fridge fermentation duration. -/
theorem C3_combined_duration_rule (e : DataExtractor) (r : PizzaRecipe)
    (hval : _validate_fermentation_conditions r = .ok ())
    (hrf : r.room_fermentation ≠ 0) (hff : r.fridge_fermentation ≠ 0) :
    calculate_yeast_percentage e r =
      (_get_combined_duration r e).bind (e.get_yeast_percentage r.yeast_type) ∧
    ∀ rc frow cell,
      e.get_closest_duration_column r.room_fermentation r.room_temperature =
        .ok rc →
      e.get_temperature_row_index r.fridge_temperature false = .ok frow →
      e.get_cell_value frow rc = .ok cell →
      ((cell.toFloat = none →
        _get_combined_duration r e = .error .invalidFermentation) ∧
       (∀ v, cell.toFloat = some v →
        _get_combined_duration r e =
          e.get_closest_duration_column (v + r.fridge_fermentation)
            r.fridge_temperature)) := by
  constructor
  · unfold calculate_yeast_percentage
    rw [hval, except_bind_ok, if_neg hrf, if_neg hff]
    rfl
  · intro rc frow cell h1 h2 h3
    constructor
    · intro hnone
      unfold _get_combined_duration
      rw [h1, except_bind_ok, h2, except_bind_ok, h3, except_bind_ok, hnone]
    · intro v hsome
      unfold _get_combined_duration
      rw [h1, except_bind_ok, h2, except_bind_ok, h3, except_bind_ok, hsome]

open NeapolitanCalculator in
/-- Witness for C3 at the concrete table and two-leg recipe (room 4 h at
20 °C, fridge 20 h at 4 °C). -/
theorem C3_combined_duration_rule_witness :
    calculate_yeast_percentage sampleExtractor sampleRecipe =
      (_get_combined_duration sampleRecipe sampleExtractor).bind
        (sampleExtractor.get_yeast_percentage sampleRecipe.yeast_type) ∧
    ∀ rc frow cell,
      sampleExtractor.get_closest_duration_column sampleRecipe.room_fermentation
        sampleRecipe.room_temperature = .ok rc →
      sampleExtractor.get_temperature_row_index sampleRecipe.fridge_temperature
        false = .ok frow →
      sampleExtractor.get_cell_value frow rc = .ok cell →
      ((cell.toFloat = none →
        _get_combined_duration sampleRecipe sampleExtractor =
          .error .invalidFermentation) ∧
       (∀ v, cell.toFloat = some v →
        _get_combined_duration sampleRecipe sampleExtractor =
          sampleExtractor.get_closest_duration_column
            (v + sampleRecipe.fridge_fermentation)
            sampleRecipe.fridge_temperature)) :=
  C3_combined_duration_rule sampleExtractor sampleRecipe
    (by decide) (by decide) (by decide)

open PizzaRecipe in
/-- C8: setting any settable input field to a value equal to its current
value is a no-op: the state is returned unchanged and no error escapes, for
every extractor — in particular no recompute runs, since a recompute on a
failing configuration would surface its error. -/
theorem C8_equal_value_set_is_noop (e : DataExtractor) (st : RecipeState) :
    (∀ v, v = st.inputs.salt_percentage →
      set_salt_percentage e st v = (st, none)) ∧
    (∀ v, v = st.inputs.oil_percentage →
      set_oil_percentage e st v = (st, none)) ∧
    (∀ v, v = st.inputs.hydration →
      set_hydration e st v = (st, none)) ∧
    (∀ v, v = st.inputs.ball_weight →
      set_ball_weight e st v = (st, none)) ∧
    (∀ v, v = st.inputs.number_of_balls →
      set_number_of_balls e st v = (st, none)) ∧
    (∀ v, v = st.inputs.yeast_type →
      set_yeast_type e st v = (st, none)) ∧
    (∀ v, v = st.inputs.room_temperature →
      set_room_temperature e st v = (st, none)) ∧
    (∀ v, v = st.inputs.fridge_temperature →
      set_fridge_temperature e st v = (st, none)) ∧
    (∀ v, v = st.inputs.room_fermentation →
      set_room_fermentation e st v = (st, none)) ∧
    (∀ v, v = st.inputs.fridge_fermentation →
      set_fridge_fermentation e st v = (st, none)) := by
  refine ⟨?_, ?_, ?_, ?_, ?_, ?_, ?_, ?_, ?_, ?_⟩
  all_goals
    intro v hv
    simp only [PizzaRecipe.set_salt_percentage, PizzaRecipe.set_oil_percentage,
      PizzaRecipe.set_hydration, PizzaRecipe.set_ball_weight,
      PizzaRecipe.set_number_of_balls, PizzaRecipe.set_yeast_type,
      PizzaRecipe.set_room_temperature, PizzaRecipe.set_fridge_temperature,
      PizzaRecipe.set_room_fermentation, PizzaRecipe.set_fridge_fermentation]
    rw [if_neg (fun hne => hne hv)]

open PizzaRecipe in
/-- Witness for C8: re-setting the salt percentage of the concrete state to
its current value changes nothing and raises nothing. -/
theorem C8_equal_value_set_is_noop_witness :
    set_salt_percentage sampleExtractor sampleState (5/2) =
      (sampleState, none) :=
  (C8_equal_value_set_is_noop sampleExtractor sampleState).1 (5/2) rfl

open PizzaRecipe NeapolitanCalculator in
/-- C4 counterexample: from the valid two-leg state (room 4 h at 20 °C,
fridge 20 h at 4 °C, yeast percentage 0.1), setting the room temperature to
0 raises MismatchFermentation("Room") — but the input attribute keeps the
new value 0 (the mutation is not aborted) while the derived yeast percentage
keeps its pre-call value, so after the failed setter the derived value is
not consistent with the recipe's current inputs: recomputing on them fails. -/
theorem C4_counterexample_input_not_rolled_back :
    PizzaRecipe.init sampleExtractor sampleRecipe = .ok sampleState ∧
    (set_room_temperature sampleExtractor sampleState 0).2 =
      some (.mismatchFermentation "Room") ∧
    (set_room_temperature sampleExtractor sampleState 0).1.inputs.room_temperature
      = 0 ∧
    sampleState.inputs.room_temperature = 20 ∧
    (set_room_temperature sampleExtractor sampleState 0).1.yeast_percentage =
      sampleState.yeast_percentage ∧
    calculate_yeast_percentage sampleExtractor
        (set_room_temperature sampleExtractor sampleState 0).1.inputs =
      .error (.mismatchFermentation "Room") := by
  refine ⟨?_, ?_, ?_, rfl, ?_, ?_⟩ <;> with_unfolding_all rfl

open PizzaRecipe NeapolitanCalculator in
/-- C4 (amended): when a setter's recompute fails, the error propagates to
the caller and the derived attributes keep their previous values (no
half-updated derived state), but the input attribute itself keeps the new
value — the input mutation is not rolled back. -/
theorem C4_amended_error_propagates_derived_kept (e : DataExtractor)
    (st : RecipeState) :
    (∀ v err, v ≠ st.inputs.salt_percentage →
      calculate_flour_weight { st.inputs with salt_percentage := v } =
        .error err →
      set_salt_percentage e st v =
        ({ st with inputs := { st.inputs with salt_percentage := v } },
          some err)) ∧
    (∀ v err, v ≠ st.inputs.oil_percentage →
      calculate_flour_weight { st.inputs with oil_percentage := v } =
        .error err →
      set_oil_percentage e st v =
        ({ st with inputs := { st.inputs with oil_percentage := v } },
          some err)) ∧
    (∀ v err, v ≠ st.inputs.hydration →
      calculate_flour_weight { st.inputs with hydration := v } = .error err →
      set_hydration e st v =
        ({ st with inputs := { st.inputs with hydration := v } }, some err)) ∧
    (∀ v err, v ≠ st.inputs.ball_weight →
      calculate_flour_weight { st.inputs with ball_weight := v } = .error err →
      set_ball_weight e st v =
        ({ st with inputs := { st.inputs with ball_weight := v } },
          some err)) ∧
    (∀ v err, v ≠ st.inputs.number_of_balls →
      calculate_flour_weight { st.inputs with number_of_balls := v } =
        .error err →
      set_number_of_balls e st v =
        ({ st with inputs := { st.inputs with number_of_balls := v } },
          some err)) ∧
    (∀ v err, v ≠ st.inputs.yeast_type →
      calculate_yeast_percentage e { st.inputs with yeast_type := v } =
        .error err →
      set_yeast_type e st v =
        ({ st with inputs := { st.inputs with yeast_type := v } },
          some err)) ∧
    (∀ v err, v ≠ st.inputs.room_temperature →
      calculate_yeast_percentage e { st.inputs with room_temperature := v } =
        .error err →
      set_room_temperature e st v =
        ({ st with inputs := { st.inputs with room_temperature := v } },
          some err)) ∧
    (∀ v err, v ≠ st.inputs.fridge_temperature →
      calculate_yeast_percentage e { st.inputs with fridge_temperature := v } =
        .error err →
      set_fridge_temperature e st v =
        ({ st with inputs := { st.inputs with fridge_temperature := v } },
          some err)) ∧
    (∀ v err, v ≠ st.inputs.room_fermentation →
      calculate_yeast_percentage e { st.inputs with room_fermentation := v } =
        .error err →
      set_room_fermentation e st v =
        ({ st with inputs := { st.inputs with room_fermentation := v } },
          some err)) ∧
    (∀ v err, v ≠ st.inputs.fridge_fermentation →
      calculate_yeast_percentage e { st.inputs with fridge_fermentation := v } =
        .error err →
      set_fridge_fermentation e st v =
        ({ st with inputs := { st.inputs with fridge_fermentation := v } },
          some err)) := by
  refine ⟨?_, ?_, ?_, ?_, ?_, ?_, ?_, ?_, ?_, ?_⟩
  all_goals
    intro v err hne herr
    simp only [PizzaRecipe.set_salt_percentage, PizzaRecipe.set_oil_percentage,
      PizzaRecipe.set_hydration, PizzaRecipe.set_ball_weight,
      PizzaRecipe.set_number_of_balls, PizzaRecipe.set_yeast_type,
      PizzaRecipe.set_room_temperature, PizzaRecipe.set_fridge_temperature,
      PizzaRecipe.set_room_fermentation, PizzaRecipe.set_fridge_fermentation]
    rw [if_pos hne, herr]

open PizzaRecipe NeapolitanCalculator in
/-- Witness for the amended C4: the failed room-temperature set from the
concrete state returns the half-updated input with the surfaced error. -/
theorem C4_amended_error_propagates_derived_kept_witness :
    set_room_temperature sampleExtractor sampleState 0 =
      ({ sampleState with
          inputs := { sampleState.inputs with room_temperature := 0 } },
        some (.mismatchFermentation "Room")) :=
  (C4_amended_error_propagates_derived_kept sampleExtractor sampleState).2.2.2.2.2.2.1
    0 (.mismatchFermentation "Room") (by decide) (by with_unfolding_all rfl)

open RecipeManager in
/-- C9 counterexample: with the 20 °C row holding the adjacent durations 3
and 4, a recipe with room fermentation 3.5 h resolves (tie, last wins) to
duration 4 and yeast percentage 0.1; the persisted record truncates the
duration with `int(3.5) = 3`, and the reconstructed recipe resolves to
duration 3 and yeast percentage 0.3 — the round trip changes the derived
yeast percentage. -/
theorem C9_counterexample_truncated_duration :
    (PizzaRecipe.init fractionExtractor fractionRecipe).map
        RecipeState.yeast_percentage = .ok (1/10) ∧
    ((PizzaRecipe.init fractionExtractor fractionRecipe).bind fun st =>
        to_recipe fractionExtractor (save_recipe_record st)).map
        RecipeState.yeast_percentage = .ok (3/10) ∧
    (1/10 : ℚ) ≠ 3/10 :=
  ⟨by with_unfolding_all rfl, by with_unfolding_all rfl, by norm_num⟩

open RecipeManager NeapolitanCalculator in
/-- C9 (amended): for every recipe state whose two fermentation durations
are integer-valued (so the record's `int(...)` truncation is lossless),
serializing to the persistence record and reconstructing yields the same
state, in particular identical derived flour weight and yeast percentage. -/
theorem C9_amended_roundtrip_integer_durations (e : DataExtractor)
    (r : PizzaRecipe) (st : RecipeState)
    (hinit : PizzaRecipe.init e r = .ok st)
    (hri : ((pyIntTrunc r.room_fermentation : Int) : ℚ) = r.room_fermentation)
    (hfi : ((pyIntTrunc r.fridge_fermentation : Int) : ℚ) =
      r.fridge_fermentation) :
    to_recipe e (save_recipe_record st) = .ok st := by
  unfold PizzaRecipe.init at hinit
  cases hfw : calculate_flour_weight r with
  | error err =>
    rw [hfw, except_bind_error] at hinit
    cases hinit
  | ok fw =>
    rw [hfw, except_bind_ok] at hinit
    cases hyp : calculate_yeast_percentage e r with
    | error err =>
      rw [hyp, except_bind_error] at hinit
      cases hinit
    | ok yp =>
      rw [hyp, except_bind_ok, except_pure] at hinit
      injection hinit with hst
      subst hst
      have hr : record_to_inputs
          (save_recipe_record
            { inputs := r, flour_weight := fw, yeast_percentage := yp }) = r := by
        obtain ⟨s, o, h, b, n, y, rt, ft, rf, ff⟩ := r
        dsimp only at hri hfi
        simp [RecipeManager.save_recipe_record, RecipeManager.record_to_inputs,
          hri, hfi]
      unfold RecipeManager.to_recipe
      rw [if_pos (by rfl), hr]
      unfold PizzaRecipe.init
      rw [hfw, except_bind_ok, hyp, except_bind_ok, except_pure]

open RecipeManager in
/-- Witness for the amended C9: the concrete two-leg recipe (integer
durations 4 and 20) round-trips to the identical state. -/
theorem C9_amended_roundtrip_integer_durations_witness :
    to_recipe sampleExtractor (save_recipe_record sampleState) =
      .ok sampleState :=
  C9_amended_roundtrip_integer_durations sampleExtractor sampleRecipe
    sampleState (by with_unfolding_all rfl) (by with_unfolding_all rfl)
    (by with_unfolding_all rfl)
